import Mathlib

/-!
Verification of the cross-process RPC substrate of the OpenXR overlay
layer (`src/api-layer/overlays.h`): the pointer-fixup ledger carried by
`IPCHeader`, the bump-allocating shared-memory buffer `IPCBuffer`, and
the response-wait loop of `RPCChannels`.

Modelling conventions:
* machine pointers and `size_t` values are natural numbers, with the
  arithmetic the hardware performs taken modulo `2 ^ 64`;
* process memory is modelled at pointer-slot granularity: a map from a
  slot address to the 64-bit value stored in the pointer-sized slot
  starting at that address;
* buffer contents are modelled at byte granularity: a map from a byte
  index (relative to the buffer base) to the byte stored there;
* the `IPCBuffer` bounds checks `(current - base + s) > size` and the
  `s + memberAlignment - 1` inside `pad` are `size_t` arithmetic, so
  they wrap modulo `2 ^ 64`; the model reproduces the wrap;
* `abort()` and other fatal outcomes are modelled by `Option` with
  `none` for the aborted computation.
-/

namespace Overlays

/-- Width of the machine pointer arithmetic (64-bit process). -/
def ptrWidth : Nat := 2 ^ 64

/-- Source: `static const int memberAlignment = 8;`. -/
def memberAlignment : Nat := 8

/-- Source: `pad(s)` rounds `s` up to the next multiple of
`memberAlignment`: `(s + memberAlignment - 1) / memberAlignment * memberAlignment`,
where `s + memberAlignment - 1` is computed in `size_t` and therefore
wraps modulo `2 ^ 64` (e.g. `pad(2^64 - 4) = 0`). -/
def pad (s : Nat) : Nat :=
  ((s + memberAlignment - 1) % ptrWidth) / memberAlignment * memberAlignment

/-- Source: `constexpr int maxPointerFixupCount = 128`. -/
def maxPointerFixupCount : Nat := 128

/-- Header laid into the shared memory tracking the RPC type, the
result, and all pointers inside the shared memory which have to be
fixed up passing from Remote to Host and then back.  `pointerOffsets`
models the `size_t pointerOffsets[maxPointerFixupCount]` array as a map
from array index to stored offset; only indices below
`pointerFixupCount` are meaningful. -/
structure IPCHeader where
  requestType : Nat
  result : Int
  pointerFixupCount : Nat
  pointerOffsets : Nat → Nat

/-- Pointer difference `p - base` as the machine computes it when the
result is stored into a `size_t` slot: reduced modulo `2 ^ 64`. -/
def ptrDiff (p base : Nat) : Nat :=
  (((p : Int) - (base : Int)) % (ptrWidth : Int)).toNat

/-- Source: `IPCHeader::addOffsetToPointer(void* vbase, void* vp)`.
Refuses when the ledger is full, otherwise appends `vp - vbase` at
index `pointerFixupCount` and increments the count. -/
def IPCHeader.addOffsetToPointer (h : IPCHeader) (vbase vp : Nat) : Bool × IPCHeader :=
  if h.pointerFixupCount ≥ maxPointerFixupCount then
    (false, h)
  else
    (true,
      { h with
        pointerFixupCount := h.pointerFixupCount + 1,
        pointerOffsets := fun i =>
          if i = h.pointerFixupCount then ptrDiff vp vbase else h.pointerOffsets i })

/-- Process memory at pointer-slot granularity: the 64-bit value stored
in the pointer-sized slot at each address. -/
abbrev Mem : Type := Nat → Nat

/-- Address of the slot `base + pointerOffsets[i]` (machine pointer
addition, modulo `2 ^ 64`). -/
def slotAddr (base off : Nat) : Nat := (base + off) % ptrWidth

/-- One iteration of the `makePointersRelative` loop, described as the
memory after the iteration: load the pointer stored at `base + off`; a
null pointer remains null (no slot changes), otherwise `base` is
subtracted from the value in that one slot (machine arithmetic, modulo
`2 ^ 64`). -/
def relStep (base : Nat) (m : Mem) (off : Nat) (x : Nat) : Nat :=
  if m (slotAddr base off) = 0 then m x
  else if x = slotAddr base off then
    (m (slotAddr base off) + (ptrWidth - base % ptrWidth)) % ptrWidth
  else m x

/-- One iteration of the `makePointersAbsolute` loop, described as the
memory after the iteration: load the pointer stored at `base + off`; a
null pointer remains null (no slot changes), otherwise `base` is added
to the value in that one slot (machine arithmetic, modulo `2 ^ 64`). -/
def absStep (base : Nat) (m : Mem) (off : Nat) (x : Nat) : Nat :=
  if m (slotAddr base off) = 0 then m x
  else if x = slotAddr base off then
    (m (slotAddr base off) + base) % ptrWidth
  else m x

/-- The recorded fixup offsets, in ledger order:
`pointerOffsets[0], …, pointerOffsets[pointerFixupCount - 1]`. -/
def relocOffsets (h : IPCHeader) : List Nat :=
  (List.range h.pointerFixupCount).map h.pointerOffsets

/-- Source: `IPCHeader::makePointersRelative(void* vbase)`: for each
recorded offset, subtract `vbase` from the non-null pointer stored at
`vbase + offset`.  The header itself is returned unchanged alongside
the updated memory. -/
def IPCHeader.makePointersRelative (h : IPCHeader) (vbase : Nat) (m : Mem) :
    IPCHeader × Mem :=
  (h, (relocOffsets h).foldl (relStep vbase) m)

/-- Source: `IPCHeader::makePointersAbsolute(void* vbase)`: for each
recorded offset, add `vbase` to the non-null pointer stored at
`vbase + offset`.  The header itself is returned unchanged alongside
the updated memory. -/
def IPCHeader.makePointersAbsolute (h : IPCHeader) (vbase : Nat) (m : Mem) :
    IPCHeader × Mem :=
  (h, (relocOffsets h).foldl (absStep vbase) m)

/-- `IPCBuffer`: base address, capacity `size`, cursor (kept as the
distance `current - base`), and the buffer contents as a map from byte
index (relative to `base`) to the byte stored there. -/
structure IPCBuffer where
  base : Nat
  size : Nat
  cur : Nat
  data : Nat → Nat

/-- The `IPCBuffer(void *base_, size_t size_)` constructor: store base
and size over the given memory contents, then `reset()` the cursor to
the start. -/
def IPCBuffer.fresh (base size : Nat) (data : Nat → Nat) : IPCBuffer :=
  ⟨base, size, 0, data⟩

/-- Source: `IPCBuffer::reset()`: `current = base;`. -/
def IPCBuffer.reset (b : IPCBuffer) : IPCBuffer :=
  { b with cur := 0 }

/-- Source: `IPCBuffer::advance(size_t s)`: `current += pad(s);` — the
pointer addition wraps modulo `2 ^ 64`. -/
def IPCBuffer.advance (b : IPCBuffer) (s : Nat) : IPCBuffer :=
  { b with cur := (b.cur + pad s) % ptrWidth }

/-- Source: `IPCBuffer::write(const void* p, size_t s)`: fail when
`current - base + s > size` — a `size_t` sum, wrapping modulo
`2 ^ 64` — otherwise copy `s` bytes from `src` to the cursor and
advance. -/
def IPCBuffer.write (b : IPCBuffer) (src : Nat → Nat) (s : Nat) : Bool × IPCBuffer :=
  if (b.cur + s) % ptrWidth > b.size then (false, b)
  else
    (true,
      IPCBuffer.advance
        { b with data := fun i => if b.cur ≤ i ∧ i < b.cur + s then src (i - b.cur) else b.data i }
        s)

/-- Source: `IPCBuffer::read(void *p, size_t s)`: `abort()` (modelled
as `none`) when `current - base + s > size` — again a wrapping
`size_t` sum — otherwise return the `s` bytes at the cursor and
advance. -/
def IPCBuffer.read (b : IPCBuffer) (s : Nat) : Option (List Nat × IPCBuffer) :=
  if (b.cur + s) % ptrWidth > b.size then none
  else some ((List.range s).map (fun j => b.data (b.cur + j)), b.advance s)

/-- Source: `IPCBuffer::getAndAdvance<T>()`: return `nullptr` when
`current - base + sizeof(T) > size`, otherwise return the current
cursor pointer and advance by `sizeof(T)`.  `sizeofT` stands for
`sizeof(T)`, a compile-time constant far below `2 ^ 64`, so the
`size_t` wrap in the guard is unreachable here (it would need a cursor
within `sizeof(T)` of `2 ^ 64`) and the guard is modelled without
it. -/
def IPCBuffer.getAndAdvance (b : IPCBuffer) (sizeofT : Nat) : Option Nat × IPCBuffer :=
  if b.cur + sizeofT > b.size then (none, b)
  else (some (b.base + b.cur), b.advance sizeofT)

/-- Source: `IPCBuffer::allocate(std::size_t s)`: return `nullptr` when
`current - base + s > size` — the same wrapping `size_t` sum as in
`write` — otherwise return the current cursor pointer and advance by
`s`. -/
def IPCBuffer.allocate (b : IPCBuffer) (s : Nat) : Option Nat × IPCBuffer :=
  if (b.cur + s) % ptrWidth > b.size then (none, b)
  else (some (b.base + b.cur), b.advance s)

/-- The `IPCBuffer` operations named by the invariant claim. -/
inductive BufOp where
  | reset : BufOp
  | advance : Nat → BufOp
  | write : (Nat → Nat) → Nat → BufOp
  | read : Nat → BufOp
  | allocate : Nat → BufOp
  | getAndAdvance : Nat → BufOp

/-- Whether an operation is a raw (unguarded) `advance` call. -/
def BufOp.isRawAdvance : BufOp → Bool
  | .advance _ => true
  | _ => false

/-- Effect of one `IPCBuffer` operation on the buffer state; `none`
models the `abort()` in `read`. -/
def stepOp (b : IPCBuffer) : BufOp → Option IPCBuffer
  | .reset => some b.reset
  | .advance s => some (b.advance s)
  | .write src s => some (b.write src s).2
  | .read s => (b.read s).map Prod.snd
  | .allocate s => some (b.allocate s).2
  | .getAndAdvance s => some (b.getAndAdvance s).2

/-- Run a sequence of `IPCBuffer` operations; an `abort()` stops the
run. -/
def runOps : IPCBuffer → List BufOp → Option IPCBuffer
  | b, [] => some b
  | b, op :: ops => (stepOp b op).bind (fun b2 => runOps b2 ops)

/-- Source: `enum RPCChannels::WaitResult` — the five outcomes the
channel vocabulary declares.  (Declared by the source; see the wait
loop below for what `WaitForMainResponseOrFail` actually returns.) -/
inductive WaitResult where
  | OVERLAY_REQUEST_READY
  | MAIN_RESPONSE_READY
  | OVERLAY_PROCESS_TERMINATED
  | MAIN_PROCESS_TERMINATED
  | WAIT_ERROR
deriving DecidableEq

/-- Outcome of one `WaitForMultipleObjects` call on the two-handle
array `{mainResponseSema, otherProcessHandle}`: the first signaled
handle wins, otherwise the bounded wait times out; `failed` models
`WAIT_FAILED`. -/
inductive WinWaitOutcome where
  | object0
  | object1
  | timeout
  | failed
deriving DecidableEq

/-- `WaitForMultipleObjects` on two handles checked in array order:
index 0 (`mainResponseSema`) before index 1 (`otherProcessHandle`);
neither signaled within the bounded poll interval gives `timeout`. -/
def waitForMultipleObjects2 (firstSignaled secondSignaled : Bool) : WinWaitOutcome :=
  if firstSignaled then .object0
  else if secondSignaled then .object1
  else .timeout

/-- Source: `RPCChannels::WaitForMainResponseOrFail()`: poll
`WaitForMultipleObjects` in a `do … while(result == WAIT_TIMEOUT)`
loop; `WAIT_OBJECT_0 + 0` (response ready) returns `true`,
`WAIT_OBJECT_0 + 1` (main process handle signaled) returns `false`,
and any other result (a wait-primitive error) also returns `false`.
`env i` is the outcome of the i-th poll; `fuel` bounds how many polls
we observe, `none` meaning the loop is still polling after `fuel`
timeouts. -/
def WaitForMainResponseOrFail : (Nat → WinWaitOutcome) → Nat → Option Bool
  | _, 0 => none
  | env, fuel + 1 =>
    match env 0 with
    | .object0 => some true
    | .object1 => some false
    | .failed => some false
    | .timeout => WaitForMainResponseOrFail (fun i => env (i + 1)) fuel

/-- Claim C8: `reset()` sets the cursor back to the buffer start and
changes nothing else: the buffer contents, base and size are untouched,
so the buffer can be reused across RPC calls without reallocation. -/
theorem C8_reset_rewinds_only_cursor (b : IPCBuffer) :
    b.reset.cur = 0 ∧ b.reset.base = b.base ∧ b.reset.size = b.size ∧
      b.reset.data = b.data :=
  ⟨rfl, rfl, rfl, rfl⟩

/-- Claim C10: `getAndAdvance<T>()` returns null — never aborting —
when `sizeof(T)` exceeds the remaining capacity, leaving the cursor
unchanged; otherwise it returns the current cursor position and
advances the cursor by the padded size of `T`. -/
theorem C10_getAndAdvance_null_on_overflow (b : IPCBuffer) (sizeofT : Nat) :
    (b.size < b.cur + sizeofT → b.getAndAdvance sizeofT = (none, b)) ∧
    (b.cur + sizeofT ≤ b.size →
      b.getAndAdvance sizeofT = (some (b.base + b.cur), b.advance sizeofT)) := by
  constructor
  · intro h
    rw [IPCBuffer.getAndAdvance, if_pos (by omega)]
  · intro h
    rw [IPCBuffer.getAndAdvance, if_neg (by omega)]

theorem C10_getAndAdvance_null_on_overflow_witness :
    (IPCBuffer.getAndAdvance ⟨0, 10, 8, fun _ => 0⟩ 4 =
      (none, (⟨0, 10, 8, fun _ => 0⟩ : IPCBuffer))) ∧
    (IPCBuffer.getAndAdvance ⟨0, 10, 0, fun _ => 0⟩ 4 =
      (some 0, IPCBuffer.advance ⟨0, 10, 0, fun _ => 0⟩ 4)) :=
  ⟨(C10_getAndAdvance_null_on_overflow ⟨0, 10, 8, fun _ => 0⟩ 4).1 (by decide),
   (C10_getAndAdvance_null_on_overflow ⟨0, 10, 0, fun _ => 0⟩ 4).2 (by decide)⟩

/-- Claim C2 counterexample: with capacity 10 and cursor 0, the claim
says `allocate(10)` must fail because `cursor + align(10) = 16 > 10`;
the code checks the unpadded request (`0 + 10 ≤ 10`), succeeds, and
moves the cursor to 16. -/
theorem C2_counterexample :
    (IPCBuffer.allocate ⟨0, 10, 0, fun _ => 0⟩ 10).1 = some 0 ∧
    (IPCBuffer.allocate ⟨0, 10, 0, fun _ => 0⟩ 10).2.cur = 16 ∧
    ¬ (0 + pad 10 ≤ 10) :=
  ⟨rfl, rfl, by decide⟩

/-- Claim C2 (amended): `allocate(n)` succeeds — returning the cursor
pointer and advancing the cursor by `pad(n)` — exactly when
`(cursor + n) mod 2^64 ≤ capacity`: the code checks the unpadded
request size (not `cursor + align(n) ≤ capacity`) and computes the
check in wrapping `size_t` arithmetic, so a huge `n` whose sum wraps
below the capacity also succeeds.  Otherwise it returns null without
mutating the buffer, and a subsequent `allocate(m)` whose wrapped
check passes still succeeds.  `allocate` is a total function: it never
aborts. -/
theorem C2_allocate_checks_unpadded_size (b : IPCBuffer) (n m : Nat) :
    ((b.cur + n) % ptrWidth ≤ b.size →
      b.allocate n = (some (b.base + b.cur), b.advance n)) ∧
    (b.size < (b.cur + n) % ptrWidth →
      b.allocate n = (none, b) ∧
      ((b.cur + m) % ptrWidth ≤ b.size →
        ((b.allocate n).2.allocate m).1 = some (b.base + b.cur))) := by
  refine ⟨fun h => ?_, fun h => ?_⟩
  · rw [IPCBuffer.allocate, if_neg (by omega)]
  · have h1 : b.allocate n = (none, b) := by
      rw [IPCBuffer.allocate, if_pos (by omega)]
    refine ⟨h1, fun hm => ?_⟩
    rw [h1]
    show (b.allocate m).1 = some (b.base + b.cur)
    rw [IPCBuffer.allocate, if_neg (by omega)]

theorem C2_allocate_checks_unpadded_size_witness :
    (IPCBuffer.allocate ⟨0, 10, 0, fun _ => 0⟩ 8 =
      (some 0, IPCBuffer.advance ⟨0, 10, 0, fun _ => 0⟩ 8)) ∧
    (IPCBuffer.allocate ⟨0, 10, 0, fun _ => 0⟩ 11 =
      (none, (⟨0, 10, 0, fun _ => 0⟩ : IPCBuffer))) ∧
    ((IPCBuffer.allocate ⟨0, 10, 0, fun _ => 0⟩ 11).2.allocate 8).1 = some 0 ∧
    (IPCBuffer.allocate ⟨0, 10, 8, fun _ => 0⟩ (2 ^ 64 - 4)).1 = some 8 :=
  ⟨(C2_allocate_checks_unpadded_size ⟨0, 10, 0, fun _ => 0⟩ 8 0).1 (by decide),
   ((C2_allocate_checks_unpadded_size ⟨0, 10, 0, fun _ => 0⟩ 11 8).2 (by decide)).1,
   ((C2_allocate_checks_unpadded_size ⟨0, 10, 0, fun _ => 0⟩ 11 8).2 (by decide)).2 (by decide),
   congrArg Prod.fst
     ((C2_allocate_checks_unpadded_size ⟨0, 10, 8, fun _ => 0⟩ (2 ^ 64 - 4) 0).1 (by decide))⟩

/-- Claim C4: `addOffsetToPointer(basePointer, fieldAddress)` appends
`fieldAddress - basePointer` at the next ledger index and returns
`true` while fewer than `maxPointerFixupCount = 128` fixups are
recorded; once the bound is reached it returns `false` and leaves the
header — count and all previously recorded offsets — unchanged. -/
theorem C4_addOffsetToPointer_bounded (h : IPCHeader) (vbase vp : Nat) :
    (h.pointerFixupCount < maxPointerFixupCount →
      (h.addOffsetToPointer vbase vp).1 = true ∧
      (h.addOffsetToPointer vbase vp).2.pointerFixupCount = h.pointerFixupCount + 1 ∧
      (h.addOffsetToPointer vbase vp).2.pointerOffsets h.pointerFixupCount = ptrDiff vp vbase ∧
      (∀ j, j ≠ h.pointerFixupCount →
        (h.addOffsetToPointer vbase vp).2.pointerOffsets j = h.pointerOffsets j) ∧
      (h.addOffsetToPointer vbase vp).2.requestType = h.requestType ∧
      (h.addOffsetToPointer vbase vp).2.result = h.result) ∧
    (maxPointerFixupCount ≤ h.pointerFixupCount →
      h.addOffsetToPointer vbase vp = (false, h)) := by
  constructor
  · intro hlt
    rw [IPCHeader.addOffsetToPointer, if_neg (by omega)]
    refine ⟨rfl, rfl, by simp, fun j hj => by simp [hj], rfl, rfl⟩
  · intro hge
    rw [IPCHeader.addOffsetToPointer, if_pos (by omega)]

theorem C4_addOffsetToPointer_bounded_witness :
    ((⟨0, 0, 0, fun _ => 0⟩ : IPCHeader).addOffsetToPointer 8 24).1 = true ∧
    ((⟨0, 0, 0, fun _ => 0⟩ : IPCHeader).addOffsetToPointer 8 24).2.pointerFixupCount = 1 ∧
    ((⟨0, 0, 128, fun _ => 0⟩ : IPCHeader).addOffsetToPointer 8 24 =
      (false, (⟨0, 0, 128, fun _ => 0⟩ : IPCHeader))) :=
  ⟨((C4_addOffsetToPointer_bounded ⟨0, 0, 0, fun _ => 0⟩ 8 24).1 (by decide)).1,
   ((C4_addOffsetToPointer_bounded ⟨0, 0, 0, fun _ => 0⟩ 8 24).1 (by decide)).2.1,
   (C4_addOffsetToPointer_bounded ⟨0, 0, 128, fun _ => 0⟩ 8 24).2 (by decide)⟩

/-- Claim C5 counterexample: at cursor 8 in a capacity-10 buffer, the
request `n = 2^64 - 4` exceeds the remaining capacity, yet the
`size_t` bounds check wraps: `(8 + (2^64 - 4)) mod 2^64 = 4 ≤ 10`.
So `write` passes the check and copies, returning `true` instead of
failing gracefully, and `read` passes it too and returns data instead
of calling `abort()`. -/
theorem C5_counterexample :
    10 < 8 + (2 ^ 64 - 4) ∧
    ((⟨0, 10, 8, fun _ => 0⟩ : IPCBuffer).write (fun _ => 0) (2 ^ 64 - 4)).1 = true ∧
    ((⟨0, 10, 8, fun _ => 0⟩ : IPCBuffer).read (2 ^ 64 - 4)).isSome = true :=
  ⟨by decide, rfl, rfl⟩

/-- Claim C5 (amended): for every request whose `size_t` bounds check
does not wrap (`cursor + n < 2^64`; the counterexample shows that a
larger `n` can pass the wrapped check): `write(ptr, n)` with `n`
exceeding the remaining capacity fails gracefully — returning `false`,
copying nothing and not advancing the cursor — while `read(ptr, n)`
past the end is a fatal local error (the `abort()` is modelled by
`none`); within bounds both copy `n` bytes at the cursor and advance
it by `pad(n)`. -/
theorem C5_write_fails_read_aborts (b : IPCBuffer) (src : Nat → Nat) (s : Nat)
    (hnw : b.cur + s < ptrWidth) :
    (b.size < b.cur + s → b.write src s = (false, b) ∧ b.read s = none) ∧
    (b.cur + s ≤ b.size →
      (b.write src s).1 = true ∧
      (b.write src s).2.cur = (b.cur + pad s) % ptrWidth ∧
      (∀ j, j < s → (b.write src s).2.data (b.cur + j) = src j) ∧
      (∀ i, i < b.cur ∨ b.cur + s ≤ i → (b.write src s).2.data i = b.data i) ∧
      b.read s = some ((List.range s).map (fun j => b.data (b.cur + j)), b.advance s)) := by
  have hmod : (b.cur + s) % ptrWidth = b.cur + s := Nat.mod_eq_of_lt hnw
  constructor
  · intro h
    constructor
    · rw [IPCBuffer.write, if_pos (by rw [hmod]; omega)]
    · rw [IPCBuffer.read, if_pos (by rw [hmod]; omega)]
  · intro h
    rw [IPCBuffer.write, if_neg (by rw [hmod]; omega)]
    refine ⟨rfl, rfl, fun j hj => ?_, fun i hi => ?_, ?_⟩
    · show (if b.cur ≤ b.cur + j ∧ b.cur + j < b.cur + s then src (b.cur + j - b.cur)
        else b.data (b.cur + j)) = src j
      rw [if_pos (by omega), Nat.add_sub_cancel_left]
    · show (if b.cur ≤ i ∧ i < b.cur + s then src (i - b.cur) else b.data i) = b.data i
      rw [if_neg (by omega)]
    · rw [IPCBuffer.read, if_neg (by rw [hmod]; omega)]

theorem C5_write_fails_read_aborts_witness :
    ((⟨0, 16, 0, fun _ => 0⟩ : IPCBuffer).write (fun j => j + 1) 4).1 = true ∧
    ((⟨0, 16, 0, fun _ => 0⟩ : IPCBuffer).write (fun j => j + 1) 4).2.data 2 = 3 ∧
    ((⟨0, 16, 8, fun _ => 0⟩ : IPCBuffer).write (fun j => j + 1) 12 =
      (false, (⟨0, 16, 8, fun _ => 0⟩ : IPCBuffer))) ∧
    ((⟨0, 16, 8, fun _ => 0⟩ : IPCBuffer).read 12 = none) :=
  ⟨((C5_write_fails_read_aborts ⟨0, 16, 0, fun _ => 0⟩ (fun j => j + 1) 4
      (by decide)).2 (by decide)).1,
   ((C5_write_fails_read_aborts ⟨0, 16, 0, fun _ => 0⟩ (fun j => j + 1) 4
      (by decide)).2 (by decide)).2.2.1 2 (by decide),
   ((C5_write_fails_read_aborts ⟨0, 16, 8, fun _ => 0⟩ (fun j => j + 1) 12
      (by decide)).1 (by decide)).1,
   ((C5_write_fails_read_aborts ⟨0, 16, 8, fun _ => 0⟩ (fun j => j + 1) 12
      (by decide)).1 (by decide)).2⟩

theorem pad_mod (s : Nat) : pad s % memberAlignment = 0 := by
  unfold pad memberAlignment ptrWidth
  omega

/-- The wrapped advance `cur := (cur + pad s) % 2^64` preserves the
8-byte alignment of the cursor: `pad s` and `2 ^ 64` are both
multiples of the alignment. -/
theorem advance_align (cur s : Nat) (hc : cur % memberAlignment = 0) :
    ((cur + pad s) % ptrWidth) % memberAlignment = 0 := by
  unfold pad memberAlignment ptrWidth at *
  omega

theorem mod_ptrWidth_lt (x : Nat) : x % ptrWidth < ptrWidth := by
  unfold ptrWidth
  omega

/-- If the wrapped `size_t` bounds check passes and the capacity is at
most `2 ^ 64 - memberAlignment`, the advanced cursor stays at or below
the padded capacity: in the non-wrapping case the advanced cursor is
`pad(cur + s) ≤ pad size`, and in the wrapping cases the `pad s`
addition either wraps back to `pad ((cur + s) mod 2^64)` or degenerates
to 0, leaving the cursor where it was. -/
theorem advance_bounded (cur s size : Nat) (hc : cur % memberAlignment = 0)
    (hsz : size + memberAlignment ≤ ptrWidth)
    (hg : (cur + s) % ptrWidth ≤ size) :
    (cur + pad s) % ptrWidth ≤ pad size := by
  unfold pad memberAlignment ptrWidth at *
  omega

/-- An unwrapped bounds check implies the wrapped one when the capacity
is below `2 ^ 64 - memberAlignment`. -/
theorem guard_mod_of_le (cur s size : Nat) (h : cur + s ≤ size)
    (hsz : size + memberAlignment ≤ ptrWidth) :
    (cur + s) % ptrWidth ≤ size := by
  unfold memberAlignment ptrWidth at *
  omega

/-- Every single `IPCBuffer` operation keeps the cursor a multiple of
the fixed 8-byte alignment and below `2 ^ 64`, and never changes the
capacity. -/
theorem stepOp_inv (b b2 : IPCBuffer) (op : BufOp)
    (hb : b.cur % memberAlignment = 0) (hlt : b.cur < ptrWidth)
    (h : stepOp b op = some b2) :
    b2.cur % memberAlignment = 0 ∧ b2.cur < ptrWidth ∧ b2.size = b.size := by
  cases op with
  | reset =>
    injection h with h
    subst h
    refine ⟨Nat.zero_mod _, ?_, rfl⟩
    show (0 : Nat) < ptrWidth
    unfold ptrWidth
    omega
  | advance s =>
    injection h with h
    subst h
    exact ⟨advance_align b.cur s hb, mod_ptrWidth_lt _, rfl⟩
  | write src s =>
    rw [stepOp] at h
    injection h with h
    subst h
    by_cases hg : (b.cur + s) % ptrWidth > b.size
    · rw [IPCBuffer.write, if_pos hg]
      exact ⟨hb, hlt, rfl⟩
    · rw [IPCBuffer.write, if_neg hg]
      exact ⟨advance_align b.cur s hb, mod_ptrWidth_lt _, rfl⟩
  | read s =>
    rw [stepOp] at h
    by_cases hg : (b.cur + s) % ptrWidth > b.size
    · rw [IPCBuffer.read, if_pos hg] at h
      exact absurd h (by simp)
    · rw [IPCBuffer.read, if_neg hg] at h
      simp only [Option.map_some'] at h
      injection h with h
      subst h
      exact ⟨advance_align b.cur s hb, mod_ptrWidth_lt _, rfl⟩
  | allocate s =>
    rw [stepOp] at h
    injection h with h
    subst h
    by_cases hg : (b.cur + s) % ptrWidth > b.size
    · rw [IPCBuffer.allocate, if_pos hg]
      exact ⟨hb, hlt, rfl⟩
    · rw [IPCBuffer.allocate, if_neg hg]
      exact ⟨advance_align b.cur s hb, mod_ptrWidth_lt _, rfl⟩
  | getAndAdvance s =>
    rw [stepOp] at h
    injection h with h
    subst h
    by_cases hg : b.cur + s > b.size
    · rw [IPCBuffer.getAndAdvance, if_pos hg]
      exact ⟨hb, hlt, rfl⟩
    · rw [IPCBuffer.getAndAdvance, if_neg hg]
      exact ⟨advance_align b.cur s hb, mod_ptrWidth_lt _, rfl⟩

/-- Every guarded `IPCBuffer` operation (anything but a raw `advance`)
keeps the cursor within the capacity rounded up to the alignment,
provided the capacity is at most `2 ^ 64 - 8`. -/
theorem stepOp_bounded (b b2 : IPCBuffer) (op : BufOp)
    (hb : b.cur % memberAlignment = 0) (hbd : b.cur ≤ pad b.size)
    (hsz : b.size + memberAlignment ≤ ptrWidth)
    (hop : op.isRawAdvance = false) (h : stepOp b op = some b2) :
    b2.cur ≤ pad b2.size := by
  cases op with
  | reset =>
    injection h with h
    subst h
    exact Nat.zero_le _
  | advance s =>
    exact absurd hop (by rw [BufOp.isRawAdvance]; simp)
  | write src s =>
    rw [stepOp] at h
    injection h with h
    subst h
    by_cases hg : (b.cur + s) % ptrWidth > b.size
    · rw [IPCBuffer.write, if_pos hg]
      exact hbd
    · rw [IPCBuffer.write, if_neg hg]
      exact advance_bounded b.cur s b.size hb hsz (by omega)
  | read s =>
    rw [stepOp] at h
    by_cases hg : (b.cur + s) % ptrWidth > b.size
    · rw [IPCBuffer.read, if_pos hg] at h
      exact absurd h (by simp)
    · rw [IPCBuffer.read, if_neg hg] at h
      simp only [Option.map_some'] at h
      injection h with h
      subst h
      exact advance_bounded b.cur s b.size hb hsz (by omega)
  | allocate s =>
    rw [stepOp] at h
    injection h with h
    subst h
    by_cases hg : (b.cur + s) % ptrWidth > b.size
    · rw [IPCBuffer.allocate, if_pos hg]
      exact hbd
    · rw [IPCBuffer.allocate, if_neg hg]
      exact advance_bounded b.cur s b.size hb hsz (by omega)
  | getAndAdvance s =>
    rw [stepOp] at h
    injection h with h
    subst h
    by_cases hg : b.cur + s > b.size
    · rw [IPCBuffer.getAndAdvance, if_pos hg]
      exact hbd
    · rw [IPCBuffer.getAndAdvance, if_neg hg]
      exact advance_bounded b.cur s b.size hb hsz
        (guard_mod_of_le b.cur s b.size (by omega) hsz)

theorem runOps_inv (ops : List BufOp) : ∀ b b2 : IPCBuffer,
    b.cur % memberAlignment = 0 → b.cur < ptrWidth →
    runOps b ops = some b2 → b2.cur % memberAlignment = 0 := by
  induction ops with
  | nil =>
    intro b b2 hb _ h
    injection h with h
    subst h
    exact hb
  | cons op ops ih =>
    intro b b2 hb hlt h
    rw [runOps] at h
    cases hs : stepOp b op with
    | none => rw [hs] at h; exact absurd h (by simp)
    | some bm =>
      rw [hs] at h
      simp only [Option.some_bind] at h
      obtain ⟨h1, h2, _⟩ := stepOp_inv b bm op hb hlt hs
      exact ih bm b2 h1 h2 h

theorem runOps_bounded (ops : List BufOp) : ∀ b b2 : IPCBuffer,
    b.cur % memberAlignment = 0 → b.cur < ptrWidth →
    b.cur ≤ pad b.size → b.size + memberAlignment ≤ ptrWidth →
    (∀ op ∈ ops, op.isRawAdvance = false) →
    runOps b ops = some b2 → b2.cur ≤ pad b2.size := by
  induction ops with
  | nil =>
    intro b b2 _ _ hbd _ _ h
    injection h with h
    subst h
    exact hbd
  | cons op ops ih =>
    intro b b2 hb hlt hbd hsz hops h
    rw [runOps] at h
    cases hs : stepOp b op with
    | none => rw [hs] at h; exact absurd h (by simp)
    | some bm =>
      rw [hs] at h
      simp only [Option.some_bind] at h
      obtain ⟨h1, h2, h3⟩ := stepOp_inv b bm op hb hlt hs
      exact ih bm b2 h1 h2
        (stepOp_bounded b bm op hb hbd hsz (hops op (by simp)) hs)
        (by rw [h3]; exact hsz)
        (fun o ho => hops o (by simp [ho])) h

/-- Claim C3 counterexample: on a freshly constructed buffer of
capacity 10, the single operation `allocate(10)` passes the unpadded
bounds check and advances the cursor by `pad(10) = 16`, so the cursor
(16) exceeds the capacity (10). -/
theorem C3_counterexample :
    Option.map IPCBuffer.cur
        (runOps (IPCBuffer.fresh 0 10 (fun _ => 0)) [BufOp.allocate 10]) = some 16 ∧
    10 < 16 :=
  ⟨rfl, by decide⟩

/-- Claim C3 (amended): for every sequence of `IPCBuffer` operations on
a freshly constructed buffer, the cursor offset stays a multiple of the
fixed 8-byte alignment; the cursor can however exceed the capacity
(`advance` is unguarded, and the guarded operations check the unpadded
size but advance by the padded one) — what holds for sequences without
raw `advance`, whenever the capacity is at most `2 ^ 64 - 8`, is the
weaker bound `cursor ≤ pad(capacity)`. -/
theorem C3_cursor_always_aligned (base size : Nat) (data : Nat → Nat)
    (ops : List BufOp) (b2 : IPCBuffer)
    (h : runOps (IPCBuffer.fresh base size data) ops = some b2) :
    b2.cur % memberAlignment = 0 ∧
    (size + memberAlignment ≤ ptrWidth →
      (∀ op ∈ ops, op.isRawAdvance = false) → b2.cur ≤ pad b2.size) :=
  ⟨runOps_inv ops _ b2 (Nat.zero_mod _)
     (by show (0 : Nat) < ptrWidth; unfold ptrWidth; omega) h,
   fun hsz hops => runOps_bounded ops _ b2 (Nat.zero_mod _)
     (by show (0 : Nat) < ptrWidth; unfold ptrWidth; omega)
     (Nat.zero_le _) hsz hops h⟩

theorem C3_cursor_always_aligned_witness :
    (IPCBuffer.advance (IPCBuffer.fresh 0 10 (fun _ => 0)) 8).cur % memberAlignment = 0 ∧
    (IPCBuffer.advance (IPCBuffer.fresh 0 10 (fun _ => 0)) 8).cur ≤
      pad (IPCBuffer.advance (IPCBuffer.fresh 0 10 (fun _ => 0)) 8).size :=
  ⟨(C3_cursor_always_aligned 0 10 (fun _ => 0) [BufOp.allocate 8] _ rfl).1,
   (C3_cursor_always_aligned 0 10 (fun _ => 0) [BufOp.allocate 8] _ rfl).2 (by decide)
     (by intro op hop; rw [List.mem_singleton] at hop; subst hop; rfl)⟩

/-- Claim C6 counterexample: `WaitForMainResponseOrFail` returns the
very same value, `false`, when the main-process handle is signaled
(`WAIT_OBJECT_0 + 1`) as when the wait primitive itself fails
(`WAIT_FAILED`): the function returns a plain `bool`, so
main-process-termination is not reported as an outcome distinct from a
wait-primitive error. -/
theorem C6_counterexample :
    WaitForMainResponseOrFail (fun _ => WinWaitOutcome.object1) 1 = some false ∧
    WaitForMainResponseOrFail (fun _ => WinWaitOutcome.failed) 1 = some false :=
  ⟨rfl, rfl⟩

/-- Claim C6 (amended): if the main-process handle is signaled by poll
`k` while the response semaphore never becomes ready, the overlay's
wait loop stops at its first non-timeout poll — within the bounded
poll interval, with no indefinite hang — and returns `false`.  That
return value is distinct from the response-ready outcome (`true`) but
identical to the value returned on a wait-primitive error: the
function returns `bool`, not the five-way `WaitResult`, so
`MAIN_PROCESS_TERMINATED` is not distinguished from `WAIT_ERROR`. -/
theorem C6_wait_terminates_on_main_exit (resp term : Nat → Bool) (k fuel : Nat)
    (hterm : term k = true) (hresp : ∀ i, resp i = false) (hfuel : k < fuel) :
    WaitForMainResponseOrFail
        (fun i => waitForMultipleObjects2 (resp i) (term i)) fuel = some false := by
  induction fuel generalizing resp term k with
  | zero => omega
  | succ fuel ih =>
    rw [WaitForMainResponseOrFail]
    have h0 : waitForMultipleObjects2 (resp 0) (term 0) =
        if term 0 then WinWaitOutcome.object1 else WinWaitOutcome.timeout := by
      rw [waitForMultipleObjects2, hresp 0]
      simp
    by_cases ht : term 0 = true
    · rw [h0, ht]
      simp
    · rw [h0, if_neg ht]
      have hk : k ≠ 0 := fun hc => ht (hc ▸ hterm)
      exact ih (fun i => resp (i + 1)) (fun i => term (i + 1)) (k - 1)
        (by show term (k - 1 + 1) = true
            have hk1 : k - 1 + 1 = k := by omega
            rw [hk1]
            exact hterm)
        (fun i => hresp (i + 1)) (by omega)

theorem C6_wait_terminates_on_main_exit_witness :
    WaitForMainResponseOrFail
        (fun i => waitForMultipleObjects2 ((fun _ => false) i) ((fun _ => true) i)) 1 =
      some false :=
  C6_wait_terminates_on_main_exit (fun _ => false) (fun _ => true) 0 1 rfl
    (fun _ => rfl) (by decide)

/-- A `makePointersRelative` iteration leaves every slot other than its
own target slot unchanged. -/
theorem relStep_ne (base : Nat) (m : Mem) (off x : Nat)
    (hx : x ≠ slotAddr base off) : relStep base m off x = m x := by
  rw [relStep]
  by_cases h0 : m (slotAddr base off) = 0
  · rw [if_pos h0]
  · rw [if_neg h0, if_neg hx]

/-- A `makePointersAbsolute` iteration leaves every slot other than its
own target slot unchanged. -/
theorem absStep_ne (base : Nat) (m : Mem) (off x : Nat)
    (hx : x ≠ slotAddr base off) : absStep base m off x = m x := by
  rw [absStep]
  by_cases h0 : m (slotAddr base off) = 0
  · rw [if_pos h0]
  · rw [if_neg h0, if_neg hx]

/-- A null slot stays null across the whole `makePointersRelative`
loop: every iteration either targets a different slot or skips the
null pointer. -/
theorem relFold_null (base : Nat) (os : List Nat) : ∀ (m : Mem) (a : Nat),
    m a = 0 → os.foldl (relStep base) m a = 0 := by
  induction os with
  | nil => intro m a ha; exact ha
  | cons o os ih =>
    intro m a ha
    rw [List.foldl_cons]
    apply ih
    by_cases hx : a = slotAddr base o
    · subst hx
      rw [relStep, if_pos ha]
      exact ha
    · rw [relStep_ne base m o a hx]
      exact ha

/-- A null slot stays null across the whole `makePointersAbsolute`
loop. -/
theorem absFold_null (base : Nat) (os : List Nat) : ∀ (m : Mem) (a : Nat),
    m a = 0 → os.foldl (absStep base) m a = 0 := by
  induction os with
  | nil => intro m a ha; exact ha
  | cons o os ih =>
    intro m a ha
    rw [List.foldl_cons]
    apply ih
    by_cases hx : a = slotAddr base o
    · subst hx
      rw [absStep, if_pos ha]
      exact ha
    · rw [absStep_ne base m o a hx]
      exact ha

/-- The `makePointersRelative` loop leaves every address outside the
recorded target slots unchanged. -/
theorem relFold_frame (base : Nat) (os : List Nat) : ∀ (m : Mem) (a : Nat),
    a ∉ os.map (fun o => slotAddr base o) → os.foldl (relStep base) m a = m a := by
  induction os with
  | nil => intro m a _; rfl
  | cons o os ih =>
    intro m a ha
    rw [List.map_cons, List.mem_cons] at ha
    push_neg at ha
    rw [List.foldl_cons, ih (relStep base m o) a ha.2]
    exact relStep_ne base m o a ha.1

/-- The `makePointersAbsolute` loop leaves every address outside the
recorded target slots unchanged. -/
theorem absFold_frame (base : Nat) (os : List Nat) : ∀ (m : Mem) (a : Nat),
    a ∉ os.map (fun o => slotAddr base o) → os.foldl (absStep base) m a = m a := by
  induction os with
  | nil => intro m a _; rfl
  | cons o os ih =>
    intro m a ha
    rw [List.map_cons, List.mem_cons] at ha
    push_neg at ha
    rw [List.foldl_cons, ih (absStep base m o) a ha.2]
    exact absStep_ne base m o a ha.1

/-- Claim C7: a recorded fixup offset whose pointer-sized slot holds
null is left null by both `makePointersRelative` and
`makePointersAbsolute`; a null pointer is never translated in either
direction. -/
theorem C7_null_pointer_never_translated (h : IPCHeader) (vbase : Nat) (m : Mem)
    (i : Nat) (_hi : i < h.pointerFixupCount)
    (hnull : m (slotAddr vbase (h.pointerOffsets i)) = 0) :
    (h.makePointersRelative vbase m).2 (slotAddr vbase (h.pointerOffsets i)) = 0 ∧
    (h.makePointersAbsolute vbase m).2 (slotAddr vbase (h.pointerOffsets i)) = 0 :=
  ⟨relFold_null vbase (relocOffsets h) m _ hnull,
   absFold_null vbase (relocOffsets h) m _ hnull⟩

theorem C7_null_pointer_never_translated_witness :
    ((⟨0, 0, 1, fun _ => 0⟩ : IPCHeader).makePointersRelative 8 (fun _ => 0)).2
      (slotAddr 8 0) = 0 ∧
    ((⟨0, 0, 1, fun _ => 0⟩ : IPCHeader).makePointersAbsolute 8 (fun _ => 0)).2
      (slotAddr 8 0) = 0 :=
  C7_null_pointer_never_translated ⟨0, 0, 1, fun _ => 0⟩ 8 (fun _ => 0) 0
    (by decide) rfl

/-- Claim C9: `makePointersRelative` and `makePointersAbsolute` modify
only the pointer-sized slots at the recorded offsets from the base:
memory at every other slot address and every field of the `IPCHeader`
(`requestType`, `result`, `pointerFixupCount`, `pointerOffsets`) are
left unchanged. -/
theorem C9_relocation_touches_only_recorded_slots (h : IPCHeader) (vbase : Nat)
    (m : Mem) (a : Nat)
    (ha : a ∉ (relocOffsets h).map (fun o => slotAddr vbase o)) :
    (h.makePointersRelative vbase m).1 = h ∧
    (h.makePointersAbsolute vbase m).1 = h ∧
    (h.makePointersRelative vbase m).2 a = m a ∧
    (h.makePointersAbsolute vbase m).2 a = m a :=
  ⟨rfl, rfl, relFold_frame vbase (relocOffsets h) m a ha,
   absFold_frame vbase (relocOffsets h) m a ha⟩

theorem C9_relocation_touches_only_recorded_slots_witness :
    ((⟨0, 0, 1, fun _ => 0⟩ : IPCHeader).makePointersRelative 8 (fun _ => 3)).1 =
      (⟨0, 0, 1, fun _ => 0⟩ : IPCHeader) ∧
    ((⟨0, 0, 1, fun _ => 0⟩ : IPCHeader).makePointersRelative 8 (fun _ => 3)).2 99 = 3 ∧
    ((⟨0, 0, 1, fun _ => 0⟩ : IPCHeader).makePointersAbsolute 8 (fun _ => 3)).2 99 = 3 :=
  ⟨(C9_relocation_touches_only_recorded_slots ⟨0, 0, 1, fun _ => 0⟩ 8 (fun _ => 3) 99
      (by decide)).1,
   (C9_relocation_touches_only_recorded_slots ⟨0, 0, 1, fun _ => 0⟩ 8 (fun _ => 3) 99
      (by decide)).2.2.1,
   (C9_relocation_touches_only_recorded_slots ⟨0, 0, 1, fun _ => 0⟩ 8 (fun _ => 3) 99
      (by decide)).2.2.2⟩

/-- Relativising then absolutising one non-null slot value `v` that is
not the base pointer value itself restores `v` (64-bit modular
arithmetic), and the intermediate relative value is non-null. -/
theorem rel_abs_cancel (base v : Nat) (hv : v < ptrWidth) (_h0 : v ≠ 0)
    (hb : v ≠ base % ptrWidth) :
    (v + (ptrWidth - base % ptrWidth)) % ptrWidth ≠ 0 ∧
    ((v + (ptrWidth - base % ptrWidth)) % ptrWidth + base) % ptrWidth = v := by
  have hW : ptrWidth = 18446744073709551616 := by norm_num [ptrWidth]
  rw [hW] at hv hb ⊢
  omega

/-- Memories that agree everywhere except at address `a` stay in
agreement off `a` across the `makePointersRelative` loop, provided no
iteration targets `a` itself. -/
theorem relFold_congr_off (base : Nat) (os : List Nat) : ∀ (m1 m2 : Mem) (a : Nat),
    a ∉ os.map (fun o => slotAddr base o) →
    (∀ x, x ≠ a → m1 x = m2 x) →
    ∀ x, x ≠ a → os.foldl (relStep base) m1 x = os.foldl (relStep base) m2 x := by
  induction os with
  | nil => intro m1 m2 a _ hm x hx; exact hm x hx
  | cons o os ih =>
    intro m1 m2 a ha hm x hx
    rw [List.map_cons, List.mem_cons] at ha
    push_neg at ha
    rw [List.foldl_cons, List.foldl_cons]
    refine ih (relStep base m1 o) (relStep base m2 o) a ha.2 ?_ x hx
    intro y hy
    have hoa : slotAddr base o ≠ a := fun hc => ha.1 hc.symm
    have hslot : m1 (slotAddr base o) = m2 (slotAddr base o) := hm _ hoa
    rw [relStep, relStep, hslot]
    by_cases h0 : m2 (slotAddr base o) = 0
    · rw [if_pos h0, if_pos h0]
      exact hm y hy
    · rw [if_neg h0, if_neg h0]
      by_cases hyo : y = slotAddr base o
      · rw [if_pos hyo, if_pos hyo]
      · rw [if_neg hyo, if_neg hyo]
        exact hm y hy

/-- Over pairwise-distinct target slots, none of which hold the base
pointer value itself, the `makePointersAbsolute` loop undoes the
`makePointersRelative` loop slot by slot. -/
theorem reloc_inverse_aux (base : Nat) (os : List Nat) : ∀ m : Mem,
    (os.map (fun o => slotAddr base o)).Nodup →
    (∀ x, m x < ptrWidth) →
    (∀ o ∈ os, m (slotAddr base o) = 0 ∨ m (slotAddr base o) ≠ base % ptrWidth) →
    ∀ x, os.foldl (absStep base) (os.foldl (relStep base) m) x = m x := by
  induction os with
  | nil => intro m _ _ _ x; rfl
  | cons o os ih =>
    intro m hnd hlt hcond x
    rw [List.map_cons, List.nodup_cons] at hnd
    obtain ⟨hno, hnd⟩ := hnd
    rw [List.foldl_cons, List.foldl_cons]
    by_cases hv0 : m (slotAddr base o) = 0
    · -- the slot is null: both iterations at `o` are no-ops
      have e1 : relStep base m o = m := by
        funext y
        rw [relStep, if_pos hv0]
      rw [e1]
      have hMa : os.foldl (relStep base) m (slotAddr base o) = 0 :=
        relFold_null base os m _ hv0
      have e2 : absStep base (os.foldl (relStep base) m) o
          = os.foldl (relStep base) m := by
        funext y
        rw [absStep, if_pos hMa]
      rw [e2]
      exact ih m hnd hlt (fun o2 ho2 => hcond o2 (List.mem_cons_of_mem o ho2)) x
    · -- non-null slot: the abs iteration restores the value displaced
      -- by the rel iteration, which the remaining iterations never touch
      have hvb : m (slotAddr base o) ≠ base % ptrWidth := by
        rcases hcond o (List.mem_cons_self o os) with hc | hc
        · exact absurd hc hv0
        · exact hc
      obtain ⟨hw0, hcanc⟩ :=
        rel_abs_cancel base (m (slotAddr base o)) (hlt _) hv0 hvb
      have hm1ne : ∀ y, y ≠ slotAddr base o → relStep base m o y = m y :=
        fun y hy => relStep_ne base m o y hy
      have hm1slot : relStep base m o (slotAddr base o)
          = (m (slotAddr base o) + (ptrWidth - base % ptrWidth)) % ptrWidth := by
        rw [relStep, if_neg hv0, if_pos rfl]
      have hMslot : os.foldl (relStep base) (relStep base m o) (slotAddr base o)
          = (m (slotAddr base o) + (ptrWidth - base % ptrWidth)) % ptrWidth := by
        rw [relFold_frame base os _ _ hno, hm1slot]
      have e3 : absStep base (os.foldl (relStep base) (relStep base m o)) o
          = os.foldl (relStep base) m := by
        funext y
        by_cases hyo : y = slotAddr base o
        · subst hyo
          rw [absStep, if_neg (by rw [hMslot]; exact hw0), if_pos rfl, hMslot,
            hcanc, relFold_frame base os m _ hno]
        · rw [absStep_ne base _ o y hyo]
          exact relFold_congr_off base os (relStep base m o) m (slotAddr base o)
            hno hm1ne y hyo
      rw [e3]
      exact ih m hnd hlt (fun o2 ho2 => hcond o2 (List.mem_cons_of_mem o ho2)) x

/-- Claim C1 counterexample: ledger with the single offset 0, buffer
base 8, and the slot at address 8 holding the pointer value 8 — equal
to the base.  `makePointersRelative(8)` turns the slot into 0, which
`makePointersAbsolute(8)` then skips as a null pointer, so the
round-trip leaves 0 where the original value was 8: the slot is not
byte-identical to its value before the relocation pair. -/
theorem C1_counterexample :
    ((⟨0, 0, 1, fun _ => 0⟩ : IPCHeader).makePointersAbsolute 8
        ((⟨0, 0, 1, fun _ => 0⟩ : IPCHeader).makePointersRelative 8
          (fun x => if x = 8 then 8 else 0)).2).2 8 = 0 ∧
    (fun x : Nat => if x = 8 then (8 : Nat) else 0) 8 = 8 := by
  constructor
  · rfl
  · rfl

/-- Claim C1 (amended): provided the recorded offsets target pairwise
distinct pointer slots and no recorded slot holds the base pointer
value itself (such a slot relocates to 0 and is then treated as null
by `makePointersAbsolute`, which never restores it — see the
counterexample), calling `makePointersAbsolute(B)` after
`makePointersRelative(B)` restores every slot of memory, the recorded
ones included, to its value before the relocation pair was applied. -/
theorem C1_relocation_round_trip (h : IPCHeader) (vbase : Nat) (m : Mem)
    (hnd : ((relocOffsets h).map (fun o => slotAddr vbase o)).Nodup)
    (hlt : ∀ x, m x < ptrWidth)
    (hcond : ∀ o ∈ relocOffsets h,
      m (slotAddr vbase o) = 0 ∨ m (slotAddr vbase o) ≠ vbase % ptrWidth)
    (x : Nat) :
    (h.makePointersAbsolute vbase (h.makePointersRelative vbase m).2).2 x = m x :=
  reloc_inverse_aux vbase (relocOffsets h) m hnd hlt hcond x

theorem C1_relocation_round_trip_witness :
    ((⟨0, 0, 1, fun _ => 0⟩ : IPCHeader).makePointersAbsolute 8
        ((⟨0, 0, 1, fun _ => 0⟩ : IPCHeader).makePointersRelative 8
          (fun _ => 5)).2).2 8 = 5 :=
  C1_relocation_round_trip ⟨0, 0, 1, fun _ => 0⟩ 8 (fun _ => 5) (by decide)
    (by intro x; show (5 : Nat) < ptrWidth; decide) (by decide) 8

end Overlays
